import Mathlib

/- Formal model of the LiveSectional animation and reliability core
   (src/reliability_manager.py and src/animation_controller.py).

   Conventions of the shallow embedding:
   * Wall-clock and logical times, durations and color weights are rationals
     (`ℚ`); the Python code computes with IEEE doubles, but every constant the
     claims exercise (tenths, halves, thirtieths) is exact in either model.
   * Python `int(x)` truncates toward zero; `pyTrunc` mirrors that on `ℚ`.
   * Methods that mutate `self` become functions returning the new state.
   * A Python method that can raise returns an `Option`/`Except` value, with
     `none`/`.error` marking the raised exception.
   * `time.time()` is passed in explicitly as a `wall`/`now : ℚ` argument, so a
     trace of calls interleaved with arbitrary wall-clock delays is a list of
     call arguments.
-/

/-- Truncation toward zero, the semantics of Python `int(float)`. -/
def pyTrunc (q : ℚ) : ℤ := if 0 ≤ q then ⌊q⌋ else ⌈q⌉

/-- An RGB color, mirroring the `(r, g, b)` tuples of the Python code. -/
abbrev Color := ℤ × ℤ × ℤ

/-- Black, the default pixel value `(0, 0, 0)`. -/
def blackColor : Color := (0, 0, 0)

/-- The `AnimationState` enumeration of animation_controller.py. -/
inductive AnimationState where
  | stopped
  | running
  | paused
  | error
deriving DecidableEq

/-- The `AnimationFrame` dataclass of animation_controller.py. -/
structure AnimationFrame where
  timestamp : ℚ
  pixels : List Color
  indices : List ℕ
  brightness : ℚ
  effect_id : String

/- ----------------------------------------------------------------
   SharedClock (reliability_manager.py, lines 120-144)
   ---------------------------------------------------------------- -/

/-- The `SharedClock` state: `start_time`, `paused`, `pause_offset`. -/
structure SharedClock where
  start_time : ℚ
  paused : Bool
  pause_offset : ℚ

/-- The `SharedClock.__init__` constructor: `start_time = time.time()`,
`paused = False`, `pause_offset = 0`; `wall` is the wall-clock reading. -/
def SharedClock.init (wall : ℚ) : SharedClock :=
  { start_time := wall, paused := false, pause_offset := 0 }

/-- The `SharedClock.get_time` method; `wall` is the current `time.time()`. -/
def SharedClock.get_time (c : SharedClock) (wall : ℚ) : ℚ :=
  if c.paused then c.start_time + c.pause_offset
  else wall - c.start_time + c.pause_offset

/-- The `SharedClock.pause` method. -/
def SharedClock.pause (c : SharedClock) (wall : ℚ) : SharedClock :=
  if c.paused then c
  else { c with pause_offset := c.get_time wall, paused := true }

/-- The `SharedClock.resume` method. -/
def SharedClock.resume (c : SharedClock) (wall : ℚ) : SharedClock :=
  if c.paused then { c with start_time := wall, paused := false }
  else c

/-- C1: the claim demands that reads while paused return the frozen elapsed
logical time and that the value never jumps across a pause/resume cycle.  The
code violates this: `get_time` while paused returns `start_time + pause_offset`
instead of `pause_offset`.  Concretely, for a clock created at wall time 1000,
read at wall time 1005 (logical time 5) and then paused at that instant, the
paused read returns 1005 rather than the frozen 5, and after `resume` at wall
time 1010 the next read returns 5 again - a discontinuous jump forward and a
jump backward, evaluated here on the code model. -/
theorem C1_sharedClock_paused_read_jumps :
    ((SharedClock.init 1000).get_time 1005 = 5) ∧
    (((SharedClock.init 1000).pause 1005).get_time 1005 = 1005) ∧
    ((((SharedClock.init 1000).pause 1005).resume 1010).get_time 1010 = 5) := by
  refine ⟨?_, ?_, ?_⟩ <;>
    norm_num [SharedClock.init, SharedClock.get_time, SharedClock.pause,
      SharedClock.resume]

/- ----------------------------------------------------------------
   FrameRateLimiter (reliability_manager.py, lines 86-117)
   ---------------------------------------------------------------- -/

/-- The `FrameRateLimiter` state.  `frame_time = 1.0 / target_fps`,
`max_frame_time = 0.1` (the hang threshold), `last_frame_time` starts at 0. -/
structure FrameRateLimiter where
  target_fps : ℕ
  frame_time : ℚ
  last_frame_time : ℚ
  frame_skip_count : ℕ
  max_frame_time : ℚ

/-- The `FrameRateLimiter.__init__` constructor. -/
def FrameRateLimiter.init (fps : ℕ) : FrameRateLimiter :=
  { target_fps := fps, frame_time := 1 / fps, last_frame_time := 0,
    frame_skip_count := 0, max_frame_time := 1 / 10 }

/-- The `FrameRateLimiter.wait_for_next_frame` method at wall time `now`.
Returns `none` when the method raises ("Excessive frame skipping detected"),
and otherwise the new limiter state together with the returned Boolean.  The
`time.sleep` is modelled as exact, so the final `time.time()` reading is
`now + sleep_time` on the sleeping branch and `now` otherwise; the claims
under study do not depend on sleeping imprecision. -/
def FrameRateLimiter.wait_for_next_frame (l : FrameRateLimiter) (now : ℚ) :
    Option (FrameRateLimiter × Bool) :=
  let elapsed := now - l.last_frame_time
  let skips := if elapsed > l.max_frame_time then l.frame_skip_count + 1
    else l.frame_skip_count
  if elapsed > l.max_frame_time ∧ skips > 10 then none
  else
    let endTime := if elapsed < l.frame_time then now + (l.frame_time - elapsed)
      else now
    some ({ l with frame_skip_count := 0, last_frame_time := endTime }, true)

/-- Repeated calls of `wait_for_next_frame` at the given wall times; `none` as
soon as one call raises. -/
def FrameRateLimiter.runCalls (l : FrameRateLimiter) :
    List ℚ → Option FrameRateLimiter
  | [] => some l
  | t :: ts =>
    match l.wait_for_next_frame t with
    | none => none
    | some (l', _) => l'.runCalls ts

/-- A call entered with `frame_skip_count = 0` can never raise: the counter
reaches at most 1 before the `> 10` comparison, and it is reset to 0 on both
branches of the rate-limiting `if` before the call returns. -/
theorem FrameRateLimiter.no_raise_of_zero (l : FrameRateLimiter) (now : ℚ)
    (h0 : l.frame_skip_count = 0) :
    ∃ l', l.wait_for_next_frame now = some (l', true) ∧
      l'.frame_skip_count = 0 := by
  simp only [FrameRateLimiter.wait_for_next_frame]
  split
  · rw [if_neg (by rintro ⟨-, hx⟩; rw [h0] at hx; omega)]
    exact ⟨_, rfl, rfl⟩
  · rename_i hc
    rw [if_neg (fun hx => hc hx.1)]
    exact ⟨_, rfl, rfl⟩

/-- C2: the claim demands that more than 10 consecutive stalls (intervals
above the 0.1 s hang threshold) raise a fatal condition.  The code cannot do
so: `frame_skip_count` is reset to 0 on *both* branches of the rate-limiting
`if` at the end of every completed call, so the counter that the
`> 10` hang check reads is always at most 1, and no sequence of calls — in
particular an arbitrarily long run of consecutive stalls such as twelve calls
spaced 0.2 s apart — ever raises.  Evaluated here on the code model: every
call sequence from a freshly constructed limiter completes. -/
theorem C2_frameRateLimiter_never_raises (fps : ℕ) (ts : List ℚ) :
    ((FrameRateLimiter.init fps).runCalls ts).isSome = true := by
  have key : ∀ (us : List ℚ) (l : FrameRateLimiter),
      l.frame_skip_count = 0 → (l.runCalls us).isSome = true := by
    intro us
    induction us with
    | nil => intro l _; rfl
    | cons t us ih =>
      intro l h0
      obtain ⟨l', hcall, hzero⟩ := l.no_raise_of_zero t h0
      unfold FrameRateLimiter.runCalls
      rw [hcall]
      exact ih l' hzero
  exact key ts _ rfl

/- ----------------------------------------------------------------
   CircuitBreaker (reliability_manager.py, lines 52-83)
   ---------------------------------------------------------------- -/

/-- The three values of the Python `self.state` string of `CircuitBreaker`. -/
inductive CBState where
  | Closed
  | Open
  | HalfOpen
deriving DecidableEq

/-- Outcome of one `CircuitBreaker.call`: `rejected` means the breaker raised
"Circuit breaker is OPEN" without invoking the delegate; `succeeded` and
`failed` mean the delegate was invoked and returned or raised. -/
inductive CallOutcome where
  | rejected
  | succeeded
  | failed
deriving DecidableEq

/-- The `CircuitBreaker` state. -/
structure CircuitBreaker where
  failure_threshold : ℕ
  recovery_timeout : ℚ
  failure_count : ℕ
  last_failure_time : ℚ
  state : CBState

/-- The `CircuitBreaker.__init__` constructor. -/
def CircuitBreaker.init (threshold : ℕ) (timeout : ℚ) : CircuitBreaker :=
  { failure_threshold := threshold, recovery_timeout := timeout,
    failure_count := 0, last_failure_time := 0, state := CBState.Closed }

/-- The `try`/`except` body of `CircuitBreaker.call`: the delegate is invoked;
`ok` tells whether it returns normally or raises. -/
def CircuitBreaker.attempt (b : CircuitBreaker) (now : ℚ) (ok : Bool) :
    CircuitBreaker × CallOutcome :=
  if ok then
    (if b.state = CBState.HalfOpen then
       { b with state := CBState.Closed, failure_count := 0 }
     else b,
     CallOutcome.succeeded)
  else
    ({ b with
        failure_count := b.failure_count + 1,
        last_failure_time := now,
        state := if b.failure_count + 1 ≥ b.failure_threshold then CBState.Open
          else b.state },
     CallOutcome.failed)

/-- The `CircuitBreaker.call` method at wall time `now`; `ok` tells whether
the wrapped delegate would succeed if invoked. -/
def CircuitBreaker.call (b : CircuitBreaker) (now : ℚ) (ok : Bool) :
    CircuitBreaker × CallOutcome :=
  if b.state = CBState.Open then
    if now - b.last_failure_time > b.recovery_timeout then
      CircuitBreaker.attempt { b with state := CBState.HalfOpen } now ok
    else (b, CallOutcome.rejected)
  else b.attempt now ok

/-- Runs a trace of calls, each a pair of wall time and delegate outcome. -/
def CircuitBreaker.run (b : CircuitBreaker) (tr : List (ℚ × Bool)) :
    CircuitBreaker :=
  tr.foldl (fun b p => (b.call p.1 p.2).1) b

/-- Breaker following the claim's words, for comparison with the code: the
failure counter counts *consecutive* failures, so any successful delegate call
resets it to zero (the code's `attempt` resets it only on a Half-Open trial
success). All else is as in the code. -/
def CircuitBreaker.specAttempt (b : CircuitBreaker) (now : ℚ) (ok : Bool) :
    CircuitBreaker × CallOutcome :=
  if ok then
    (if b.state = CBState.HalfOpen then
       { b with state := CBState.Closed, failure_count := 0 }
     else { b with failure_count := 0 },
     CallOutcome.succeeded)
  else
    ({ b with
        failure_count := b.failure_count + 1,
        last_failure_time := now,
        state := if b.failure_count + 1 ≥ b.failure_threshold then CBState.Open
          else b.state },
     CallOutcome.failed)

/-- The claim-model counterpart of `CircuitBreaker.call`. -/
def CircuitBreaker.specCall (b : CircuitBreaker) (now : ℚ) (ok : Bool) :
    CircuitBreaker × CallOutcome :=
  if b.state = CBState.Open then
    if now - b.last_failure_time > b.recovery_timeout then
      CircuitBreaker.specAttempt { b with state := CBState.HalfOpen } now ok
    else (b, CallOutcome.rejected)
  else b.specAttempt now ok

/-- The claim-model counterpart of `CircuitBreaker.run`. -/
def CircuitBreaker.specRun (b : CircuitBreaker) (tr : List (ℚ × Bool)) :
    CircuitBreaker :=
  tr.foldl (fun b p => (b.specCall p.1 p.2).1) b

/-- C3 counterexample: with `failure_threshold = 2` and the trace fail (t=0),
success (t=1), fail (t=2), the code opens the breaker and rejects the next
call at t=3, although the two failures were not consecutive — the intervening
success did not reset the counter.  Under the claim's consecutive-failure
reading (`specRun`) the breaker stays Closed and the call at t=3 reaches the
delegate. -/
theorem C3_counterexample_success_does_not_reset :
    (((CircuitBreaker.init 2 60).run [(0, false), (1, true), (2, false)]).state
        = CBState.Open) ∧
    ((((CircuitBreaker.init 2 60).run [(0, false), (1, true), (2, false)]).call
        3 true).2 = CallOutcome.rejected) ∧
    (((CircuitBreaker.init 2 60).specRun
        [(0, false), (1, true), (2, false)]).state = CBState.Closed) ∧
    ((((CircuitBreaker.init 2 60).specRun
        [(0, false), (1, true), (2, false)]).specCall 3 true).2
        = CallOutcome.succeeded) := by
  norm_num +decide [CircuitBreaker.init, CircuitBreaker.run,
    CircuitBreaker.specRun, CircuitBreaker.call, CircuitBreaker.specCall,
    CircuitBreaker.attempt, CircuitBreaker.specAttempt]

/-- C3 amended: the failure counter counts failures since the last reset —
it is zeroed only by a successful Half-Open trial, and a success in Closed
state leaves it unchanged (this is where the original claim fails).  With
that amendment the rest of the claim holds of `CircuitBreaker.call`: after
`failure_threshold` such failures the breaker transitions to Open; while Open
and within `recovery_timeout` of the last failure, calls are rejected without
invoking the delegate and the state is unchanged; once strictly more than
`recovery_timeout` has elapsed, one Half-Open trial runs — success resets to
Closed with the counter zeroed, failure returns to Open and restarts the
recovery timer.  The final conjunct is the invariant making the trial-failure
case unconditional for reachable states: an Open breaker's counter is at or
above the threshold, and `call` preserves that. -/
theorem C3_circuitBreaker_behavior (b : CircuitBreaker) (now : ℚ) (ok : Bool) :
    (b.state = CBState.Closed → b.call now true = (b, CallOutcome.succeeded)) ∧
    (b.state = CBState.Closed →
      b.call now false =
        ({ b with
            failure_count := b.failure_count + 1,
            last_failure_time := now,
            state := if b.failure_count + 1 ≥ b.failure_threshold then
                CBState.Open
              else CBState.Closed },
         CallOutcome.failed)) ∧
    (b.state = CBState.Open →
      ¬ (now - b.last_failure_time > b.recovery_timeout) →
      b.call now ok = (b, CallOutcome.rejected)) ∧
    (b.state = CBState.Open → now - b.last_failure_time > b.recovery_timeout →
      b.call now true =
        ({ b with state := CBState.Closed, failure_count := 0 },
         CallOutcome.succeeded)) ∧
    (b.state = CBState.Open → now - b.last_failure_time > b.recovery_timeout →
      b.failure_count ≥ b.failure_threshold →
      (b.call now false).1.state = CBState.Open ∧
      (b.call now false).1.last_failure_time = now ∧
      (b.call now false).2 = CallOutcome.failed) ∧
    ((b.state = CBState.Open → b.failure_count ≥ b.failure_threshold) →
      (b.call now ok).1.state = CBState.Open →
      (b.call now ok).1.failure_count ≥ (b.call now ok).1.failure_threshold) := by
  refine ⟨?_, ?_, ?_, ?_, ?_, ?_⟩
  · intro hs
    simp [CircuitBreaker.call, CircuitBreaker.attempt, hs]
  · intro hs
    simp only [CircuitBreaker.call, CircuitBreaker.attempt, hs]
    simp
  · intro hs hlt
    simp [CircuitBreaker.call, hs, hlt]
  · intro hs hgt
    simp [CircuitBreaker.call, CircuitBreaker.attempt, hs, hgt]
  · intro hs hgt hge
    simp only [CircuitBreaker.call, CircuitBreaker.attempt, hs, if_pos hgt,
      if_true]
    simp only [if_pos (by omega : b.failure_count + 1 ≥ b.failure_threshold)]
    simp
  · intro hinv hopen'
    rcases b with ⟨thr, rt, fc, lf, st⟩
    simp only [CircuitBreaker.call, CircuitBreaker.attempt] at hinv hopen' ⊢
    cases st <;> cases ok <;>
        (try simp_all) <;> (try split_ifs at hopen' ⊢) <;> (try simp_all)

/-- Witness instantiating every hypothesis of `C3_circuitBreaker_behavior` at
concrete breakers: a fresh Closed breaker with threshold 2 and timeout 60, and
an Open breaker that failed twice, last at time 100. -/
theorem C3_circuitBreaker_behavior_witness :
    ((CircuitBreaker.init 2 60).call 5 true
      = (CircuitBreaker.init 2 60, CallOutcome.succeeded)) ∧
    ((CircuitBreaker.init 2 60).call 5 false
      = ({ CircuitBreaker.init 2 60 with
            failure_count := (CircuitBreaker.init 2 60).failure_count + 1,
            last_failure_time := 5,
            state := if (CircuitBreaker.init 2 60).failure_count + 1
                ≥ (CircuitBreaker.init 2 60).failure_threshold then CBState.Open
              else CBState.Closed },
         CallOutcome.failed)) ∧
    ((⟨2, 60, 2, 100, CBState.Open⟩ : CircuitBreaker).call 120 true
      = (⟨2, 60, 2, 100, CBState.Open⟩, CallOutcome.rejected)) ∧
    ((⟨2, 60, 2, 100, CBState.Open⟩ : CircuitBreaker).call 200 true
      = (⟨2, 60, 0, 100, CBState.Closed⟩, CallOutcome.succeeded)) ∧
    ((((⟨2, 60, 2, 100, CBState.Open⟩ : CircuitBreaker).call 200 false).1.state
        = CBState.Open) ∧
      (((⟨2, 60, 2, 100, CBState.Open⟩ : CircuitBreaker).call
          200 false).1.last_failure_time = 200) ∧
      (((⟨2, 60, 2, 100, CBState.Open⟩ : CircuitBreaker).call 200 false).2
        = CallOutcome.failed)) ∧
    ((((⟨2, 60, 2, 100, CBState.Open⟩ : CircuitBreaker).call 120 true).1.state
        = CBState.Open) →
      ((⟨2, 60, 2, 100, CBState.Open⟩ : CircuitBreaker).call
          120 true).1.failure_count
        ≥ ((⟨2, 60, 2, 100, CBState.Open⟩ : CircuitBreaker).call
          120 true).1.failure_threshold) := by
  refine ⟨?_, ?_, ?_, ?_, ?_, ?_⟩
  · exact (C3_circuitBreaker_behavior (CircuitBreaker.init 2 60) 5 true).1 rfl
  · exact (C3_circuitBreaker_behavior (CircuitBreaker.init 2 60) 5 false).2.1
      rfl
  · exact (C3_circuitBreaker_behavior _ 120 true).2.2.1 rfl (by norm_num)
  · exact (C3_circuitBreaker_behavior _ 200 true).2.2.2.1 rfl (by norm_num)
  · exact (C3_circuitBreaker_behavior _ 200 false).2.2.2.2.1 rfl (by norm_num)
      (by norm_num)
  · exact (C3_circuitBreaker_behavior _ 120 true).2.2.2.2.2
      (fun _ => by norm_num)

/- ----------------------------------------------------------------
   Effect variants (animation_controller.py, lines 46-303).
   Each variant structure repeats the `BaseEffect` fields
   (effect_id, state, start_time, timeout = 30) alongside its own
   parameters; `create` is `__init__`, `start` is `BaseEffect.start`.
   ---------------------------------------------------------------- -/

/-- The `BlinkEffect` state (update waveform not needed by the claims). -/
structure BlinkEffect where
  effect_id : String
  color : Color
  duty_cycle : ℚ
  blink_rate : ℚ
  pixel_indices : List ℕ
  period : ℚ
  state : AnimationState
  start_time : ℚ
  timeout : ℚ

/-- The `BlinkEffect.__init__` constructor (with `BaseEffect.__init__`). -/
def BlinkEffect.create (id : String) (color : Color) (duty_cycle : ℚ)
    (blink_rate : ℚ) (idx : List ℕ) : BlinkEffect :=
  { effect_id := id, color := color, duty_cycle := duty_cycle,
    blink_rate := blink_rate, pixel_indices := idx, period := 1 / blink_rate,
    state := AnimationState.stopped, start_time := 0, timeout := 30 }

/-- The inherited `BaseEffect.start`. -/
def BlinkEffect.start (e : BlinkEffect) (t : ℚ) : BlinkEffect :=
  { e with state := AnimationState.running, start_time := t }

/-- The inherited `BaseEffect.is_timed_out`. -/
def BlinkEffect.is_timed_out (e : BlinkEffect) (t : ℚ) : Bool :=
  decide (t - e.start_time > e.timeout)

/-- `BlinkEffect.is_complete`: blink effects run until timed out. -/
def BlinkEffect.is_complete (e : BlinkEffect) (t : ℚ) : Bool :=
  e.is_timed_out t

/-- The `WeatherEffect` state (update waveform not needed by the claims). -/
structure WeatherEffect where
  effect_id : String
  effect_type : String
  intensity : ℚ
  pixel_indices : List ℕ
  phase : ℚ
  state : AnimationState
  start_time : ℚ
  timeout : ℚ

/-- The `WeatherEffect.__init__` constructor (with `BaseEffect.__init__`). -/
def WeatherEffect.create (id : String) (effect_type : String) (intensity : ℚ)
    (idx : List ℕ) : WeatherEffect :=
  { effect_id := id, effect_type := effect_type, intensity := intensity,
    pixel_indices := idx, phase := 0, state := AnimationState.stopped,
    start_time := 0, timeout := 30 }

/-- The inherited `BaseEffect.start`. -/
def WeatherEffect.start (e : WeatherEffect) (t : ℚ) : WeatherEffect :=
  { e with state := AnimationState.running, start_time := t }

/-- The inherited `BaseEffect.is_timed_out`. -/
def WeatherEffect.is_timed_out (e : WeatherEffect) (t : ℚ) : Bool :=
  decide (t - e.start_time > e.timeout)

/-- `WeatherEffect.is_complete`: weather effects run until timed out. -/
def WeatherEffect.is_complete (e : WeatherEffect) (t : ℚ) : Bool :=
  e.is_timed_out t

/-- The `FadeEffect` state. -/
structure FadeEffect where
  effect_id : String
  start_color : Color
  end_color : Color
  fade_duration : ℚ
  pixel_indices : List ℕ
  state : AnimationState
  start_time : ℚ
  timeout : ℚ

/-- The `FadeEffect.__init__` constructor (with `BaseEffect.__init__`). -/
def FadeEffect.create (id : String) (start_color end_color : Color)
    (fade_duration : ℚ) (idx : List ℕ) : FadeEffect :=
  { effect_id := id, start_color := start_color, end_color := end_color,
    fade_duration := fade_duration, pixel_indices := idx,
    state := AnimationState.stopped, start_time := 0, timeout := 30 }

/-- The inherited `BaseEffect.start`. -/
def FadeEffect.start (e : FadeEffect) (t : ℚ) : FadeEffect :=
  { e with state := AnimationState.running, start_time := t }

/-- The `FadeEffect._ease_in_out` smoothstep easing `t*t*(3 - 2*t)`. -/
def FadeEffect.ease_in_out (t : ℚ) : ℚ := t * t * (3 - 2 * t)

/-- One interpolated pixel of `FadeEffect.update`:
`int(start + (end - start) * eased)` per channel. -/
def FadeEffect.interpolated (e : FadeEffect) (eased : ℚ) : Color :=
  (pyTrunc ((e.start_color.1 : ℚ)
      + ((e.end_color.1 : ℚ) - (e.start_color.1 : ℚ)) * eased),
   pyTrunc ((e.start_color.2.1 : ℚ)
      + ((e.end_color.2.1 : ℚ) - (e.start_color.2.1 : ℚ)) * eased),
   pyTrunc ((e.start_color.2.2 : ℚ)
      + ((e.end_color.2.2 : ℚ) - (e.start_color.2.2 : ℚ)) * eased))

/-- The `FadeEffect.update` method: `progress = min(1.0, elapsed /
fade_duration)` (no clamp below), smoothstep easing, interpolated pixels. -/
def FadeEffect.update (e : FadeEffect) (current_time : ℚ) :
    Option AnimationFrame :=
  if e.state ≠ AnimationState.running then none
  else
    let elapsed := current_time - e.start_time
    let progress := min 1 (elapsed / e.fade_duration)
    let eased := FadeEffect.ease_in_out progress
    some { timestamp := current_time,
           pixels := e.pixel_indices.map (fun _ => e.interpolated eased),
           indices := e.pixel_indices, brightness := 1,
           effect_id := e.effect_id }

/-- Fade update following the claim's words, for comparison with the code:
progress is clamped to the interval [0, 1] on both sides (the code only
applies `min(1.0, ...)`). -/
def FadeEffect.specUpdate (e : FadeEffect) (current_time : ℚ) :
    Option AnimationFrame :=
  if e.state ≠ AnimationState.running then none
  else
    let elapsed := current_time - e.start_time
    let progress := max 0 (min 1 (elapsed / e.fade_duration))
    let eased := FadeEffect.ease_in_out progress
    some { timestamp := current_time,
           pixels := e.pixel_indices.map (fun _ => e.interpolated eased),
           indices := e.pixel_indices, brightness := 1,
           effect_id := e.effect_id }

/-- `FadeEffect.is_complete`: complete when elapsed reaches the duration. -/
def FadeEffect.is_complete (e : FadeEffect) (t : ℚ) : Bool :=
  decide (t - e.start_time ≥ e.fade_duration)

/-- The `HeatMapEffect` state. -/
structure HeatMapEffect where
  effect_id : String
  data : List ℚ
  max_iterations : ℕ
  current_iteration : ℕ
  fade_speed : ℚ
  pixel_indices : List ℕ
  state : AnimationState
  start_time : ℚ
  timeout : ℚ

/-- The `HeatMapEffect.__init__` constructor (with `BaseEffect.__init__`);
`none` for `idx` is Python's default `pixel_indices=None`, which becomes
`list(range(len(data)))`. -/
def HeatMapEffect.create (id : String) (data : List ℚ) (max_iterations : ℕ)
    (idx : Option (List ℕ)) : HeatMapEffect :=
  { effect_id := id, data := data, max_iterations := max_iterations,
    current_iteration := 0, fade_speed := 1 / 50,
    pixel_indices := idx.getD (List.range data.length),
    state := AnimationState.stopped, start_time := 0, timeout := 30 }

/-- The inherited `BaseEffect.start`. -/
def HeatMapEffect.start (e : HeatMapEffect) (t : ℚ) : HeatMapEffect :=
  { e with state := AnimationState.running, start_time := t }

/-- The blue→green→yellow→red ramp of `HeatMapEffect.update`. -/
def heatColor (value : ℚ) : Color :=
  if value < 1/4 then (0, pyTrunc (255 * value * 4), 255)
  else if value < 1/2 then (0, 255, pyTrunc (255 * (1 - (value - 1/4) * 4)))
  else if value < 3/4 then (pyTrunc (255 * (value - 1/2) * 4), 255, 0)
  else (255, pyTrunc (255 * (1 - (value - 3/4) * 4)), 0)

/-- The `HeatMapEffect.update` method: no frame unless running and below the
iteration cap; a productive call increments `current_iteration`. -/
def HeatMapEffect.update (e : HeatMapEffect) (current_time : ℚ) :
    HeatMapEffect × Option AnimationFrame :=
  if e.state ≠ AnimationState.running then (e, none)
  else if e.current_iteration ≥ e.max_iterations then (e, none)
  else
    ({ e with current_iteration := e.current_iteration + 1 },
     some { timestamp := current_time, pixels := e.data.map heatColor,
            indices := e.pixel_indices, brightness := 1,
            effect_id := e.effect_id })

/-- `HeatMapEffect.is_complete`: complete when the cap is reached. -/
def HeatMapEffect.is_complete (e : HeatMapEffect) (t : ℚ) : Bool :=
  decide (e.current_iteration ≥ e.max_iterations)

/-- Repeated `update` calls at the given tick times, counting the frames
produced. -/
def HeatMapEffect.runUpdates (e : HeatMapEffect) :
    List ℚ → HeatMapEffect × ℕ
  | [] => (e, 0)
  | t :: ts =>
    let r := e.update t
    let s := r.1.runUpdates ts
    (s.1, (if r.2.isSome then 1 else 0) + s.2)

/-- Python `int()` of an exact integer is that integer. -/
theorem pyTrunc_intCast (z : ℤ) : pyTrunc (z : ℚ) = z := by
  unfold pyTrunc
  split <;> simp

/-- At eased progress 0 the fade emits exactly `start_color`. -/
theorem FadeEffect.interpolated_zero (e : FadeEffect) :
    e.interpolated 0 = e.start_color := by
  unfold FadeEffect.interpolated
  simp [pyTrunc_intCast]

/-- At eased progress 1 the fade emits exactly `end_color`. -/
theorem FadeEffect.interpolated_one (e : FadeEffect) :
    e.interpolated 1 = e.end_color := by
  unfold FadeEffect.interpolated
  have h1 : ((e.start_color.1 : ℚ)
      + ((e.end_color.1 : ℚ) - (e.start_color.1 : ℚ)) * 1)
      = (e.end_color.1 : ℚ) := by ring
  have h2 : ((e.start_color.2.1 : ℚ)
      + ((e.end_color.2.1 : ℚ) - (e.start_color.2.1 : ℚ)) * 1)
      = (e.end_color.2.1 : ℚ) := by ring
  have h3 : ((e.start_color.2.2 : ℚ)
      + ((e.end_color.2.2 : ℚ) - (e.start_color.2.2 : ℚ)) * 1)
      = (e.end_color.2.2 : ℚ) := by ring
  rw [h1, h2, h3, pyTrunc_intCast, pyTrunc_intCast, pyTrunc_intCast]

/-- At eased progress 1/2 the fade emits the weight-1/2 blend of the two
colors, channelwise `int((start + end) / 2)`. -/
theorem FadeEffect.interpolated_half (e : FadeEffect) :
    e.interpolated (1/2)
      = (pyTrunc (((e.start_color.1 : ℚ) + (e.end_color.1 : ℚ)) / 2),
         pyTrunc (((e.start_color.2.1 : ℚ) + (e.end_color.2.1 : ℚ)) / 2),
         pyTrunc (((e.start_color.2.2 : ℚ) + (e.end_color.2.2 : ℚ)) / 2)) := by
  unfold FadeEffect.interpolated
  have h1 : ((e.start_color.1 : ℚ)
      + ((e.end_color.1 : ℚ) - (e.start_color.1 : ℚ)) * (1/2))
      = ((e.start_color.1 : ℚ) + (e.end_color.1 : ℚ)) / 2 := by ring
  have h2 : ((e.start_color.2.1 : ℚ)
      + ((e.end_color.2.1 : ℚ) - (e.start_color.2.1 : ℚ)) * (1/2))
      = ((e.start_color.2.1 : ℚ) + (e.end_color.2.1 : ℚ)) / 2 := by ring
  have h3 : ((e.start_color.2.2 : ℚ)
      + ((e.end_color.2.2 : ℚ) - (e.start_color.2.2 : ℚ)) * (1/2))
      = ((e.start_color.2.2 : ℚ) + (e.end_color.2.2 : ℚ)) / 2 := by ring
  rw [h1, h2, h3]

/-- C6: for every effect variant, `is_complete` is false immediately after
`start` (for a freshly constructed effect, with the variant's parameters
positive where the check divides by them: `fade_duration > 0` for Fade and
`max_iterations > 0` for HeatMap; Blink and Weather need nothing since their
completion is the 30 s timeout).  For `FadeEffect`, `is_complete(now)` is true
exactly when elapsed logical time since start reaches `fade_duration` — the
last two conjuncts give both directions, so with duration 2.0 it is false at
elapsed 1.999 and true at elapsed 2.0. -/
theorem C6_is_complete_after_start (id ty : String) (c1 c2 : Color)
    (duty rate inten d : ℚ) (data : List ℚ) (m : ℕ) (idx : List ℕ)
    (oidx : Option (List ℕ)) (t0 : ℚ) (hd : 0 < d) (hm : 0 < m) :
    (((BlinkEffect.create id c1 duty rate idx).start t0).is_complete t0
      = false) ∧
    (((WeatherEffect.create id ty inten idx).start t0).is_complete t0
      = false) ∧
    (((FadeEffect.create id c1 c2 d idx).start t0).is_complete t0 = false) ∧
    (((HeatMapEffect.create id data m oidx).start t0).is_complete t0
      = false) ∧
    (∀ (e : FadeEffect) (t : ℚ), t - e.start_time ≥ e.fade_duration →
      e.is_complete t = true) ∧
    (∀ (e : FadeEffect) (t : ℚ), ¬ (t - e.start_time ≥ e.fade_duration) →
      e.is_complete t = false) := by
  refine ⟨?_, ?_, ?_, ?_, ?_, ?_⟩
  · simp only [BlinkEffect.create, BlinkEffect.start, BlinkEffect.is_complete,
      BlinkEffect.is_timed_out, decide_eq_false_iff_not]
    norm_num
  · simp only [WeatherEffect.create, WeatherEffect.start,
      WeatherEffect.is_complete, WeatherEffect.is_timed_out,
      decide_eq_false_iff_not]
    norm_num
  · simp only [FadeEffect.create, FadeEffect.start, FadeEffect.is_complete,
      decide_eq_false_iff_not]
    intro hcon
    rw [sub_self] at hcon
    exact absurd (le_antisymm (by linarith) hd.le) (by linarith)
  · simp only [HeatMapEffect.create, HeatMapEffect.start,
      HeatMapEffect.is_complete, decide_eq_false_iff_not]
    omega
  · intro e t h
    exact decide_eq_true h
  · intro e t h
    exact decide_eq_false h

/-- Witness for `C6_is_complete_after_start` at concrete effects, including
the duration-2.0 Fade examples at elapsed 1.999 and 2.0. -/
theorem C6_is_complete_after_start_witness :
    ((0:ℚ) < 2) ∧ (0 < 100) ∧
    (((BlinkEffect.create "x" blackColor (1/2) 2 [0]).start 10).is_complete 10
      = false) ∧
    (((WeatherEffect.create "x" "rain" 1 [0]).start 10).is_complete 10
      = false) ∧
    (((FadeEffect.create "x" blackColor blackColor 2 [0]).start 10).is_complete
      10 = false) ∧
    (((HeatMapEffect.create "x" [1/2] 100 none).start 10).is_complete 10
      = false) ∧
    (((FadeEffect.create "x" blackColor blackColor 2 [0]).start 0).is_complete
      2 = true) ∧
    (((FadeEffect.create "x" blackColor blackColor 2 [0]).start 0).is_complete
      (1999/1000) = false) := by
  have T := C6_is_complete_after_start "x" "rain" blackColor blackColor (1/2)
    2 1 2 [1/2] 100 [0] none 10 (by norm_num) (by norm_num)
  refine ⟨by norm_num, by norm_num, T.1, T.2.1, T.2.2.1, T.2.2.2.1, ?_, ?_⟩
  · exact T.2.2.2.2.1 _ 2
      (by norm_num [FadeEffect.create, FadeEffect.start])
  · exact T.2.2.2.2.2 _ (1999/1000)
      (by norm_num [FadeEffect.create, FadeEffect.start])

/-- C7: a `HeatMapEffect` produces at most
`max_iterations - current_iteration` frames over any sequence of update
calls (so at most `max_iterations` over the lifetime of a freshly created
effect, whose `current_iteration` is 0), each productive update advances
`current_iteration` by exactly one, and once `current_iteration` has reached
`max_iterations` every further update returns no frame and `is_complete` is
true — in particular the tick after the `max_iterations`-th productive
update yields no frame. -/
theorem C7_heatmap_iteration_bound (e : HeatMapEffect) (ts : List ℚ)
    (t : ℚ) :
    ((e.runUpdates ts).2 ≤ e.max_iterations - e.current_iteration) ∧
    ((e.runUpdates ts).1.current_iteration
      = e.current_iteration + (e.runUpdates ts).2) ∧
    (e.current_iteration ≥ e.max_iterations →
      (e.update t).2 = none ∧ e.is_complete t = true) := by
  have key : ∀ (us : List ℚ) (a : HeatMapEffect),
      (a.runUpdates us).2 ≤ a.max_iterations - a.current_iteration ∧
      (a.runUpdates us).1.current_iteration
        = a.current_iteration + (a.runUpdates us).2 := by
    intro us
    induction us with
    | nil =>
      intro a
      simp [HeatMapEffect.runUpdates]
    | cons u us ih =>
      intro a
      by_cases h1 : a.state ≠ AnimationState.running
      · have hupd : a.update u = (a, none) := by
          unfold HeatMapEffect.update
          rw [if_pos h1]
        simp only [HeatMapEffect.runUpdates, hupd]
        simp only [Option.isSome_none]
        simp
        have := ih a
        omega
      · by_cases h2 : a.current_iteration ≥ a.max_iterations
        · have hupd : a.update u = (a, none) := by
            unfold HeatMapEffect.update
            rw [if_neg h1, if_pos h2]
          simp only [HeatMapEffect.runUpdates, hupd]
          simp only [Option.isSome_none]
          simp
          have := ih a
          omega
        · have hupd : a.update u =
              ({ a with current_iteration := a.current_iteration + 1 },
               some { timestamp := u, pixels := a.data.map heatColor,
                      indices := a.pixel_indices, brightness := 1,
                      effect_id := a.effect_id }) := by
            unfold HeatMapEffect.update
            rw [if_neg h1, if_neg h2]
          simp only [HeatMapEffect.runUpdates, hupd]
          simp only [Option.isSome_some]
          simp
          have h3 := ih { a with current_iteration := a.current_iteration + 1 }
          have hp1 : ({ a with current_iteration := a.current_iteration + 1 } :
              HeatMapEffect).max_iterations = a.max_iterations := rfl
          have hp2 : ({ a with current_iteration := a.current_iteration + 1 } :
              HeatMapEffect).current_iteration = a.current_iteration + 1 := rfl
          rw [hp1, hp2] at h3
          omega
  refine ⟨(key ts e).1, (key ts e).2, ?_⟩
  intro h
  refine ⟨?_, decide_eq_true h⟩
  unfold HeatMapEffect.update
  by_cases h1 : e.state ≠ AnimationState.running
  · rw [if_pos h1]
  · rw [if_neg h1, if_pos h]

/-- Witness for `C7_heatmap_iteration_bound`: a heat map whose iteration
counter has reached its cap of 2 yields no frame and reports completion. -/
theorem C7_heatmap_iteration_bound_witness :
    ((⟨"h", [1/2], 2, 2, 1/50, [0], AnimationState.running, 0, 30⟩ :
        HeatMapEffect).current_iteration
      ≥ (⟨"h", [1/2], 2, 2, 1/50, [0], AnimationState.running, 0, 30⟩ :
        HeatMapEffect).max_iterations) ∧
    (((⟨"h", [1/2], 2, 2, 1/50, [0], AnimationState.running, 0, 30⟩ :
        HeatMapEffect).update 5).2 = none ∧
      (⟨"h", [1/2], 2, 2, 1/50, [0], AnimationState.running, 0, 30⟩ :
        HeatMapEffect).is_complete 5 = true) := by
  exact ⟨by decide, (C7_heatmap_iteration_bound _ [] 5).2.2 (by decide)⟩

/-- C8 counterexample: the claim says progress is clamped to [0, 1], but the
code computes `min(1.0, elapsed / fade_duration)` with no lower clamp.  For a
running fade from black to (100,100,100) with duration 1 started at logical
time 1, an update at logical time 0 has elapsed −1, so the code's progress is
−1, the smoothstep weight is 5, and the emitted pixel is (500,500,500) —
while the claimed clamped computation (`specUpdate`) emits exactly the start
color (0,0,0). -/
theorem C8_counterexample_no_lower_clamp :
    ((((FadeEffect.create "f" (0,0,0) (100,100,100) 1 [0]).start 1).update
        0).map AnimationFrame.pixels = some [((500 : ℤ), 500, 500)]) ∧
    ((((FadeEffect.create "f" (0,0,0) (100,100,100) 1 [0]).start 1).specUpdate
        0).map AnimationFrame.pixels = some [((0 : ℤ), 0, 0)]) ∧
    (((FadeEffect.create "f" (0,0,0) (100,100,100) 1 [0]).start 1).update 0
      ≠ ((FadeEffect.create "f" (0,0,0) (100,100,100) 1 [0]).start 1).specUpdate
        0) := by
  refine ⟨?_, ?_, ?_⟩
  · norm_num [FadeEffect.create, FadeEffect.start, FadeEffect.update,
      FadeEffect.ease_in_out, FadeEffect.interpolated, pyTrunc, min_def]
  · norm_num [FadeEffect.create, FadeEffect.start, FadeEffect.specUpdate,
      FadeEffect.ease_in_out, FadeEffect.interpolated, pyTrunc, min_def,
      max_def]
  · intro hcon
    have h1 : (((FadeEffect.create "f" (0,0,0) (100,100,100) 1 [0]).start
        1).update 0).map AnimationFrame.pixels = some [((500 : ℤ), 500, 500)] := by
      norm_num [FadeEffect.create, FadeEffect.start, FadeEffect.update,
        FadeEffect.ease_in_out, FadeEffect.interpolated, pyTrunc, min_def]
    have h2 : (((FadeEffect.create "f" (0,0,0) (100,100,100) 1 [0]).start
        1).specUpdate 0).map AnimationFrame.pixels = some [((0 : ℤ), 0, 0)] := by
      norm_num [FadeEffect.create, FadeEffect.start, FadeEffect.specUpdate,
        FadeEffect.ease_in_out, FadeEffect.interpolated, pyTrunc, min_def,
        max_def]
    rw [hcon, h2] at h1
    exact absurd h1 (by decide)

/-- C8 amended: the code clamps progress only from above,
`progress = min(1, elapsed / fade_duration)`; for updates at or after the
start time this still lies in [0, 1], and the claim's three checkpoints hold
of a running fade: the emitted pixels follow the smoothstep weight
`3t² − 2t³` of that progress, equal exactly `start_color` at elapsed 0,
exactly `end_color` at elapsed `fade_duration`, and the weight-1/2 blend
`int((start + end)/2)` per channel at elapsed `fade_duration / 2`. -/
theorem C8_fade_smoothstep (e : FadeEffect) (t : ℚ)
    (hrun : e.state = AnimationState.running) (hd : 0 < e.fade_duration)
    (hts : e.start_time ≤ t) :
    (0 ≤ min 1 ((t - e.start_time) / e.fade_duration) ∧
      min 1 ((t - e.start_time) / e.fade_duration) ≤ 1) ∧
    ((e.update t).map AnimationFrame.pixels
      = some (e.pixel_indices.map (fun _ =>
          e.interpolated (FadeEffect.ease_in_out
            (min 1 ((t - e.start_time) / e.fade_duration)))))) ∧
    (t = e.start_time →
      (e.update t).map AnimationFrame.pixels
        = some (e.pixel_indices.map (fun _ => e.start_color))) ∧
    (t = e.start_time + e.fade_duration →
      (e.update t).map AnimationFrame.pixels
        = some (e.pixel_indices.map (fun _ => e.end_color))) ∧
    (t = e.start_time + e.fade_duration / 2 →
      (e.update t).map AnimationFrame.pixels
        = some (e.pixel_indices.map (fun _ =>
            (pyTrunc (((e.start_color.1 : ℚ) + (e.end_color.1 : ℚ)) / 2),
             pyTrunc (((e.start_color.2.1 : ℚ) + (e.end_color.2.1 : ℚ)) / 2),
             pyTrunc (((e.start_color.2.2 : ℚ)
               + (e.end_color.2.2 : ℚ)) / 2))))) := by
  refine ⟨⟨le_min (by norm_num) (div_nonneg (by linarith) hd.le),
    min_le_left _ _⟩, ?_, ?_, ?_, ?_⟩
  · simp [FadeEffect.update, hrun]
  · intro h
    subst h
    have hmin : min (1:ℚ) 0 = 0 := by norm_num
    have hease : FadeEffect.ease_in_out 0 = 0 := by
      norm_num [FadeEffect.ease_in_out]
    simp [FadeEffect.update, hrun, sub_self, zero_div, hmin, hease,
      FadeEffect.interpolated_zero]
  · intro h
    subst h
    have helapsed : e.start_time + e.fade_duration - e.start_time
        = e.fade_duration := by ring
    have hdiv : e.fade_duration / e.fade_duration = 1 := div_self hd.ne'
    have hease : FadeEffect.ease_in_out 1 = 1 := by
      norm_num [FadeEffect.ease_in_out]
    simp [FadeEffect.update, hrun, helapsed, hdiv, min_self, hease,
      FadeEffect.interpolated_one]
  · intro h
    subst h
    have helapsed : e.start_time + e.fade_duration / 2 - e.start_time
        = e.fade_duration / 2 := by ring
    have hdiv : e.fade_duration / 2 / e.fade_duration = 1 / 2 := by
      field_simp
      ring
    have hmin : min (1:ℚ) (1/2) = 1/2 := by norm_num
    have hease : FadeEffect.ease_in_out (1/2) = 1/2 := by
      norm_num [FadeEffect.ease_in_out]
    simp [FadeEffect.update, hrun, helapsed, hdiv, hmin, hease,
      FadeEffect.interpolated_half]
    have hmin2 : (1 : ℚ) ⊓ 2⁻¹ = 1 / 2 := by norm_num
    rw [hmin2, hease, FadeEffect.interpolated_half]
    exact Or.inr rfl

/-- Witness for `C8_fade_smoothstep` at all three of the claim's
checkpoints: a running fade from black to (100,100,100) with duration 2
started at logical time 0 emits exactly the start color (0,0,0) at elapsed
0, exactly the end color (100,100,100) at elapsed 2, and the weight-1/2
blend (50,50,50) at the midpoint elapsed 1. -/
theorem C8_fade_smoothstep_witness :
    ((((FadeEffect.create "x" (0,0,0) (100,100,100) 2 [0]).start 0).state
      = AnimationState.running) ∧
     (0 < ((FadeEffect.create "x" (0,0,0) (100,100,100) 2
        [0]).start 0).fade_duration)) ∧
    ((((FadeEffect.create "x" (0,0,0) (100,100,100) 2 [0]).start 0).update
        0).map AnimationFrame.pixels = some [((0 : ℤ), 0, 0)]) ∧
    ((((FadeEffect.create "x" (0,0,0) (100,100,100) 2 [0]).start 0).update
        2).map AnimationFrame.pixels = some [((100 : ℤ), 100, 100)]) ∧
    ((((FadeEffect.create "x" (0,0,0) (100,100,100) 2 [0]).start 0).update
        1).map AnimationFrame.pixels = some [((50 : ℤ), 50, 50)]) := by
  have hd : (0:ℚ) < ((FadeEffect.create "x" (0,0,0) (100,100,100) 2
      [0]).start 0).fade_duration := by
    norm_num [FadeEffect.create, FadeEffect.start]
  have T0 := C8_fade_smoothstep
    ((FadeEffect.create "x" (0,0,0) (100,100,100) 2 [0]).start 0) 0 rfl hd
    (by norm_num [FadeEffect.create, FadeEffect.start])
  have T2 := C8_fade_smoothstep
    ((FadeEffect.create "x" (0,0,0) (100,100,100) 2 [0]).start 0) 2 rfl hd
    (by norm_num [FadeEffect.create, FadeEffect.start])
  have T1 := C8_fade_smoothstep
    ((FadeEffect.create "x" (0,0,0) (100,100,100) 2 [0]).start 0) 1 rfl hd
    (by norm_num [FadeEffect.create, FadeEffect.start])
  refine ⟨⟨rfl, hd⟩, ?_, ?_, ?_⟩
  · have h := T0.2.2.1 (by norm_num [FadeEffect.create, FadeEffect.start])
    rw [h]
    norm_num [FadeEffect.create, FadeEffect.start]
  · have h := T2.2.2.2.1 (by norm_num [FadeEffect.create, FadeEffect.start])
    rw [h]
    norm_num [FadeEffect.create, FadeEffect.start]
  · have h := T1.2.2.2.2 (by norm_num [FadeEffect.create, FadeEffect.start])
    rw [h]
    norm_num [FadeEffect.create, FadeEffect.start, pyTrunc]

/- ----------------------------------------------------------------
   Frame compositing (animation_controller.py, lines 432-476)
   ---------------------------------------------------------------- -/

/-- The per-pixel alpha blending of `_combine_effects`:
`int(c * (1 - alpha) + v * alpha)` per channel with the fixed `alpha = 0.5`,
blending the new pixel `v` over the current buffer value `c`. -/
def blendPixel (cur v : Color) : Color :=
  let alpha : ℚ := 1/2
  (pyTrunc ((cur.1 : ℚ) * (1 - alpha) + (v.1 : ℚ) * alpha),
   pyTrunc ((cur.2.1 : ℚ) * (1 - alpha) + (v.2.1 : ℚ) * alpha),
   pyTrunc ((cur.2.2 : ℚ) * (1 - alpha) + (v.2.2 : ℚ) * alpha))

/-- Stable insertion of `a` behind all list entries of key at most `key a`,
the building block of `sortByKey`. -/
def insertByKey {α : Type} (key : α → ℕ) (a : α) : List α → List α
  | [] => [a]
  | b :: bs => if key b ≤ key a then b :: insertByKey key a bs
    else a :: b :: bs

/-- Python's stable `list.sort(key=...)` in ascending key order, as a stable
insertion sort. -/
def sortByKey {α : Type} (key : α → ℕ) (l : List α) : List α :=
  l.foldl (fun acc a => insertByKey key a acc) []

/-- The loop body of `_combine_effects` for one frame, recursing over
`enumerate(frame.pixels)` with position `i`: positions at or beyond
`len(indices)` are skipped, as are pixel indices at or beyond the buffer
length; an in-range entry alpha-blends into the buffer. -/
def applyFrameAux (is : List ℕ) (buf : List Color) (i : ℕ) :
    List Color → List Color
  | [] => buf
  | p :: ps =>
    let buf' := if i < is.length then
        (let pixel_index := is.getD i 0
         if pixel_index < buf.length then
           buf.set pixel_index (blendPixel (buf.getD pixel_index blackColor) p)
         else buf)
      else buf
    applyFrameAux is buf' (i+1) ps

/-- Applies one frame's writes to the full pixel buffer. -/
def applyFrame (buf : List Color) (f : AnimationFrame) : List Color :=
  applyFrameAux f.indices buf 0 f.pixels

/-- A list of (pixel index, color) writes applied to the buffer in order,
skipping out-of-range indices. -/
def applyWrites (buf : List Color) (ws : List (ℕ × Color)) : List Color :=
  ws.foldl (fun b w =>
    if w.1 < b.length then b.set w.1 (blendPixel (b.getD w.1 blackColor) w.2)
    else b) buf

/-- The `AnimationController._combine_effects` method on the path where an
LED controller is present, with `n = led_controller.number` addressable
pixels; `priorityOf` is the effect table's `effects[id].priority.value`
lookup used as the sort key.  Returns `none` for an empty frame list (the
`if not frames` guard); the no-controller fallback branch is not modelled —
every claim under study concerns the controller-present path. -/
def AnimationController.combine_effects (n : ℕ) (priorityOf : String → ℕ)
    (frames : List AnimationFrame) : Option AnimationFrame :=
  match frames with
  | [] => none
  | _ :: _ =>
    let sorted := sortByKey (fun f => priorityOf f.effect_id) frames
    let combined := sorted.headD
      { timestamp := 0, pixels := [], indices := [], brightness := 0,
        effect_id := "" }
    let full := sorted.foldl applyFrame (List.replicate n blackColor)
    some { timestamp := combined.timestamp, pixels := full,
           indices := List.range n, brightness := combined.brightness,
           effect_id := "combined" }

/-- Stable insertion in descending key order, for the claim model. -/
def insertByKeyDesc {α : Type} (key : α → ℕ) (a : α) : List α → List α
  | [] => [a]
  | b :: bs => if key a ≤ key b then b :: insertByKeyDesc key a bs
    else a :: b :: bs

/-- Stable sort in descending key order, for the claim model. -/
def sortByKeyDesc {α : Type} (key : α → ℕ) (l : List α) : List α :=
  l.foldl (fun acc a => insertByKeyDesc key a acc) []

/-- Compositor following the claim's words, for comparison with the code:
frames are applied so that *higher-priority* effects' pixel writes are
composited *last*, i.e. in descending priority-value order (the highest
priority has the lowest value and so comes last); the metadata frame is the
highest-priority one, the last of the descending order.  The code instead
applies the ascending order, highest priority first. -/
def AnimationController.spec_combine_effects (n : ℕ)
    (priorityOf : String → ℕ) (frames : List AnimationFrame) :
    Option AnimationFrame :=
  match frames with
  | [] => none
  | _ :: _ =>
    let sorted := sortByKeyDesc (fun f => priorityOf f.effect_id) frames
    let combined := sorted.getLastD
      { timestamp := 0, pixels := [], indices := [], brightness := 0,
        effect_id := "" }
    let full := sorted.foldl applyFrame (List.replicate n blackColor)
    some { timestamp := combined.timestamp, pixels := full,
           indices := List.range n, brightness := combined.brightness,
           effect_id := "combined" }

/-- Unrolling `applyFrameAux` as the write list `(indices.drop i).zip pixels`:
the position guard `i < len(indices)` and `zip`'s truncation to the shorter
list coincide. -/
theorem applyFrameAux_eq_applyWrites (is : List ℕ) (ps : List Color) :
    ∀ (i : ℕ) (buf : List Color),
      applyFrameAux is buf i ps = applyWrites buf ((is.drop i).zip ps) := by
  induction ps with
  | nil =>
    intro i buf
    simp [applyFrameAux, applyWrites]
  | cons p ps ih =>
    intro i buf
    by_cases h : i < is.length
    · have hdrop : is.drop i = is[i] :: is.drop (i + 1) :=
        List.drop_eq_getElem_cons h
      have hgetD : is.getD i 0 = is[i] := by
        simp [List.getD, List.getElem?_eq_getElem h]
      rw [hdrop]
      simp only [applyFrameAux, List.zip_cons_cons, applyWrites,
        List.foldl_cons, hgetD]
      rw [← applyWrites, ← ih, if_pos h]
    · have hdrop : is.drop i = [] := List.drop_eq_nil_of_le (by omega)
      have hdrop' : is.drop (i + 1) = [] := List.drop_eq_nil_of_le (by omega)
      rw [hdrop]
      simp only [applyFrameAux, if_neg h]
      rw [ih, hdrop']
      rfl

/-- A frame's effective writes are exactly `indices.zip(pixels)`: trailing
pixel colors beyond the length of `indices` are dropped by the zip. -/
theorem applyFrame_eq_applyWrites (buf : List Color) (f : AnimationFrame) :
    applyFrame buf f = applyWrites buf (f.indices.zip f.pixels) := by
  have h := applyFrameAux_eq_applyWrites f.indices f.pixels 0 buf
  simpa [applyFrame] using h

/-- Applying writes never changes the buffer length. -/
theorem applyWrites_length : ∀ (ws : List (ℕ × Color)) (buf : List Color),
    (applyWrites buf ws).length = buf.length := by
  intro ws
  induction ws with
  | nil => intro buf; rfl
  | cons w ws ih =>
    intro buf
    have hstep : applyWrites buf (w :: ws)
        = applyWrites (if w.1 < buf.length then
            buf.set w.1 (blendPixel (buf.getD w.1 blackColor) w.2)
          else buf) ws := rfl
    rw [hstep, ih]
    split_ifs <;> simp

/-- Writes whose pixel index is out of range are silently skipped: filtering
them away does not change the result. -/
theorem applyWrites_filter (n : ℕ) : ∀ (ws : List (ℕ × Color))
    (buf : List Color), buf.length = n →
    applyWrites buf (ws.filter (fun w => decide (w.1 < n))) =
      applyWrites buf ws := by
  intro ws
  induction ws with
  | nil => intro buf _; rfl
  | cons w ws ih =>
    intro buf hbuf
    by_cases hw : w.1 < n
    · rw [List.filter_cons_of_pos (by simpa using hw)]
      have hcond : w.1 < buf.length := by omega
      have hstep1 : applyWrites buf (w :: ws.filter (fun w => decide (w.1 < n)))
          = applyWrites (buf.set w.1 (blendPixel (buf.getD w.1 blackColor) w.2))
            (ws.filter (fun w => decide (w.1 < n))) := by
        show applyWrites (if w.1 < buf.length then _ else _) _ = _
        rw [if_pos hcond]
      have hstep2 : applyWrites buf (w :: ws)
          = applyWrites (buf.set w.1 (blendPixel (buf.getD w.1 blackColor) w.2))
            ws := by
        show applyWrites (if w.1 < buf.length then _ else _) _ = _
        rw [if_pos hcond]
      rw [hstep1, hstep2]
      exact ih _ (by simp [hbuf])
    · rw [List.filter_cons_of_neg (by simpa using hw)]
      have hcond : ¬ w.1 < buf.length := by omega
      have hstep2 : applyWrites buf (w :: ws) = applyWrites buf ws := by
        show applyWrites (if w.1 < buf.length then _ else _) _ = _
        rw [if_neg hcond]
      rw [hstep2]
      exact ih _ hbuf

/-- A pixel index touched by no write keeps its value. -/
theorem applyWrites_getD_of_not_mem : ∀ (ws : List (ℕ × Color))
    (buf : List Color) (j : ℕ) (d : Color), j ∉ ws.map Prod.fst →
    (applyWrites buf ws).getD j d = buf.getD j d := by
  intro ws
  induction ws with
  | nil => intro buf j d _; rfl
  | cons w ws ih =>
    intro buf j d hj
    simp only [List.map_cons, List.mem_cons, not_or] at hj
    have hstep : applyWrites buf (w :: ws)
        = applyWrites (if w.1 < buf.length then
            buf.set w.1 (blendPixel (buf.getD w.1 blackColor) w.2)
          else buf) ws := rfl
    rw [hstep, ih _ _ _ hj.2]
    split_ifs
    · simp only [List.getD_eq_getElem?_getD]
      rw [List.getElem?_set_ne (fun hx => hj.1 hx.symm)]
    · rfl

/-- Membership is preserved by `insertByKey`. -/
theorem mem_insertByKey {α : Type} (key : α → ℕ) (a x : α) :
    ∀ (l : List α), x ∈ insertByKey key a l ↔ x = a ∨ x ∈ l := by
  intro l
  induction l with
  | nil => simp [insertByKey]
  | cons b bs ih =>
    simp only [insertByKey]
    split_ifs <;> simp only [List.mem_cons, ih] <;> tauto

/-- `sortByKey` is a permutation in the weak sense needed here: it has the
same members as its input. -/
theorem mem_sortByKey {α : Type} (key : α → ℕ) (x : α) (l : List α) :
    x ∈ sortByKey key l ↔ x ∈ l := by
  have key' : ∀ (m : List α) (acc : List α),
      x ∈ m.foldl (fun acc a => insertByKey key a acc) acc ↔
        x ∈ acc ∨ x ∈ m := by
    intro m
    induction m with
    | nil => simp
    | cons b bs ih =>
      intro acc
      rw [List.foldl_cons, ih, mem_insertByKey]
      simp only [List.mem_cons]
      tauto
  rw [sortByKey, key' l []]
  simp

/-- Folding frames over the buffer preserves its length. -/
theorem foldl_applyFrame_length : ∀ (fs : List AnimationFrame)
    (buf : List Color), (fs.foldl applyFrame buf).length = buf.length := by
  intro fs
  induction fs with
  | nil => intro buf; rfl
  | cons f fs ih =>
    intro buf
    rw [List.foldl_cons, ih, applyFrame_eq_applyWrites, applyWrites_length]

/-- A pixel index listed in no frame's `indices` keeps its value through the
whole composition fold. -/
theorem foldl_applyFrame_getD : ∀ (fs : List AnimationFrame)
    (buf : List Color) (j : ℕ) (d : Color),
    (∀ f ∈ fs, j ∉ f.indices) →
    (fs.foldl applyFrame buf).getD j d = buf.getD j d := by
  intro fs
  induction fs with
  | nil => intro buf j d _; rfl
  | cons f fs ih =>
    intro buf j d hj
    rw [List.foldl_cons, ih _ _ _ (fun g hg => hj g (List.mem_cons_of_mem _ hg)),
      applyFrame_eq_applyWrites, applyWrites_getD_of_not_mem]
    intro hmem
    rcases List.mem_map.mp hmem with ⟨w, hw, hfst⟩
    exact hj f (List.mem_cons_self f fs)
      (hfst ▸ (List.of_mem_zip hw).1)

/-- C10: with an LED controller of `n` pixels present, a combined frame
always has exactly `n` pixels with indices `0..n-1`; a frame's effective
writes are exactly `indices.zip(pixels)` filtered to in-range indices — so
trailing pixel colors beyond the length of `indices` and entries whose pixel
index is at or beyond `n` are silently ignored, with no out-of-range write
and no error (the model is total); and every pixel index touched by no frame
keeps the default black. -/
theorem C10_combined_frame_bounds (n : ℕ) (priorityOf : String → ℕ)
    (frames : List AnimationFrame) (cf : AnimationFrame) (j : ℕ)
    (buf : List Color) (f : AnimationFrame) :
    (AnimationController.combine_effects n priorityOf frames = some cf →
      cf.pixels.length = n ∧ cf.indices = List.range n) ∧
    (applyFrame buf f
      = applyWrites buf ((f.indices.zip f.pixels).filter
          (fun w => decide (w.1 < buf.length)))) ∧
    (AnimationController.combine_effects n priorityOf frames = some cf →
      j < n → (∀ g ∈ frames, j ∉ g.indices) →
      cf.pixels.getD j blackColor = blackColor) := by
  refine ⟨?_, ?_, ?_⟩
  · intro h
    cases frames with
    | nil => simp [AnimationController.combine_effects] at h
    | cons f0 fs =>
      simp only [AnimationController.combine_effects, Option.some_inj] at h
      constructor
      · rw [← h]
        show ((sortByKey (fun f => priorityOf f.effect_id)
            (f0 :: fs)).foldl applyFrame
            (List.replicate n blackColor)).length = n
        rw [foldl_applyFrame_length, List.length_replicate]
      · rw [← h]
  · rw [applyFrame_eq_applyWrites,
      applyWrites_filter buf.length _ buf rfl]
  · intro h hj hnot
    cases frames with
    | nil => simp [AnimationController.combine_effects] at h
    | cons f0 fs =>
      simp only [AnimationController.combine_effects, Option.some_inj] at h
      rw [← h]
      show ((sortByKey (fun f => priorityOf f.effect_id)
          (f0 :: fs)).foldl applyFrame
          (List.replicate n blackColor)).getD j blackColor = blackColor
      rw [foldl_applyFrame_getD _ _ _ _
        (fun g hg => hnot g ((mem_sortByKey _ g _).mp hg))]
      simp [List.getD_eq_getElem?_getD, List.getElem?_replicate_of_lt hj]

/-- Witness for `C10_combined_frame_bounds`: a strip of 2 pixels and one
frame carrying three pixel colors but only two indices, one of which (5) is
out of range; the combined frame has exactly 2 pixels over indices [0, 1],
the extra color and the out-of-range write are dropped, and the untouched
pixel 1 stays black. -/
theorem C10_combined_frame_bounds_witness :
    (AnimationController.combine_effects 2 (fun _ => 1)
        [⟨0, [(10,10,10),(20,20,20),(30,30,30)], [0,5], 1, "a"⟩]
      = some ⟨0, [((5:ℤ),5,5),(0,0,0)], [0,1], 1, "combined"⟩) ∧
    ((⟨0, [((5:ℤ),5,5),(0,0,0)], [0,1], 1, "combined"⟩ :
        AnimationFrame).pixels.length = 2 ∧
      (⟨0, [((5:ℤ),5,5),(0,0,0)], [0,1], 1, "combined"⟩ :
        AnimationFrame).indices = List.range 2) ∧
    (applyFrame [blackColor, blackColor]
        ⟨0, [(10,10,10),(20,20,20),(30,30,30)], [0,5], 1, "a"⟩
      = applyWrites [blackColor, blackColor]
          ((([0,5] : List ℕ).zip
              [((10:ℤ),10,10),(20,20,20),(30,30,30)]).filter
            (fun w => decide (w.1 < ([blackColor, blackColor] :
              List Color).length)))) ∧
    ((⟨0, [((5:ℤ),5,5),(0,0,0)], [0,1], 1, "combined"⟩ :
        AnimationFrame).pixels.getD 1 blackColor = blackColor) := by
  have hc : AnimationController.combine_effects 2 (fun _ => 1)
      [⟨0, [(10,10,10),(20,20,20),(30,30,30)], [0,5], 1, "a"⟩]
      = some ⟨0, [((5:ℤ),5,5),(0,0,0)], [0,1], 1, "combined"⟩ := by
    norm_num [AnimationController.combine_effects, sortByKey, insertByKey,
      applyFrame, applyFrameAux, blendPixel, pyTrunc, blackColor,
      List.range_succ, List.replicate_succ, List.set_cons_zero,
      List.set_cons_succ]
  have T := C10_combined_frame_bounds 2 (fun _ => 1)
    [⟨0, [(10,10,10),(20,20,20),(30,30,30)], [0,5], 1, "a"⟩]
    ⟨0, [((5:ℤ),5,5),(0,0,0)], [0,1], 1, "combined"⟩ 1
    [blackColor, blackColor]
    ⟨0, [(10,10,10),(20,20,20),(30,30,30)], [0,5], 1, "a"⟩
  refine ⟨hc, T.1 hc, T.2.1, ?_⟩
  refine T.2.2 hc (by norm_num) ?_
  intro g hg
  rw [List.mem_singleton] at hg
  subst hg
  decide

/-- A priority-1 (Critical, highest) single-pixel frame at index 0. -/
def frameA : AnimationFrame :=
  { timestamp := 0, pixels := [(200,0,0)], indices := [0], brightness := 1,
    effect_id := "a" }

/-- A priority-2 (lower) single-pixel frame at the same index 0. -/
def frameB : AnimationFrame :=
  { timestamp := 0, pixels := [(0,200,0)], indices := [0], brightness := 1,
    effect_id := "b" }

/-- The effect-table priority lookup pairing `frameA` with value 1 and
`frameB` with value 2. -/
def prioAB : String → ℕ := fun id => if id = "a" then 1 else 2

/-- C4 counterexample: the code sorts ascending by priority value and then
applies the frames in that order, so the *highest*-priority frame (lowest
value) is composited *first*, not last as the claim says.  With P1 = frameA
(value 1, color (200,0,0)) and P2 = frameB (value 2, color (0,200,0))
sharing pixel 0 on a 1-pixel strip, the code yields (50,100,0) — P2's write
lands last and carries weight 1/2 — whereas the claim's order
(`spec_combine_effects`, higher priority composited last) yields
(100,50,0). -/
theorem C4_counterexample_priority_order :
    ((AnimationController.combine_effects 1 prioAB [frameA, frameB]).map
        AnimationFrame.pixels = some [((50:ℤ),100,0)]) ∧
    ((AnimationController.spec_combine_effects 1 prioAB [frameA, frameB]).map
        AnimationFrame.pixels = some [((100:ℤ),50,0)]) ∧
    (AnimationController.combine_effects 1 prioAB [frameA, frameB]
      ≠ AnimationController.spec_combine_effects 1 prioAB [frameA, frameB]) := by
  have h1 : (AnimationController.combine_effects 1 prioAB
      [frameA, frameB]).map AnimationFrame.pixels = some [((50:ℤ),100,0)] := by
    norm_num +decide [AnimationController.combine_effects, sortByKey,
      insertByKey, applyFrame, applyFrameAux, blendPixel, pyTrunc,
      blackColor, List.replicate_succ, List.set_cons_zero,
      List.set_cons_succ, frameA, frameB, prioAB]
  have h2 : (AnimationController.spec_combine_effects 1 prioAB
      [frameA, frameB]).map AnimationFrame.pixels = some [((100:ℤ),50,0)] := by
    norm_num +decide [AnimationController.spec_combine_effects,
      sortByKeyDesc, insertByKeyDesc, applyFrame, applyFrameAux, blendPixel,
      pyTrunc, blackColor, List.replicate_succ, List.set_cons_zero,
      List.set_cons_succ, frameA, frameB, prioAB]
  refine ⟨h1, h2, ?_⟩
  intro hcon
  rw [hcon, h2] at h1
  exact absurd h1 (by decide)

/-- Applying a single-entry frame to a buffer blends into the one in-range
index. -/
theorem applyFrame_single (buf : List Color) (f : AnimationFrame) (idx : ℕ)
    (p : Color) (hp : f.pixels = [p]) (hi : f.indices = [idx])
    (hn : idx < buf.length) :
    applyFrame buf f = buf.set idx (blendPixel (buf.getD idx blackColor) p) := by
  rw [applyFrame_eq_applyWrites, hi, hp]
  show (if idx < buf.length then
      buf.set idx (blendPixel (buf.getD idx blackColor) p)
    else buf) = _
  rw [if_pos hn]

/-- C4 amended: `_combine_effects` sorts ascending by priority value, so the
*highest*-priority frame (lowest value) is applied *first* and the
lowest-priority frame's write lands last; the order the frames arrive in
does not matter.  Composition alpha-blends at the fixed weight 1/2 instead
of overwriting, so two effects sharing a pixel yield the deterministic
blended color `blend(blend(black, p1), p2)` — concretely (50,100,0) for P1 =
(200,0,0) over P2 = (0,200,0), which is not P1's raw output. -/
theorem C4_composite_order_and_blend (n : ℕ) (priorityOf : String → ℕ)
    (f1 f2 : AnimationFrame) (idx : ℕ) (p1 p2 : Color)
    (h12 : priorityOf f1.effect_id < priorityOf f2.effect_id)
    (hp1 : f1.pixels = [p1]) (hi1 : f1.indices = [idx])
    (hp2 : f2.pixels = [p2]) (hi2 : f2.indices = [idx]) (hn : idx < n) :
    ((AnimationController.combine_effects n priorityOf [f1, f2]).map
        AnimationFrame.pixels
      = some ((List.replicate n blackColor).set idx
          (blendPixel (blendPixel blackColor p1) p2))) ∧
    (AnimationController.combine_effects n priorityOf [f2, f1]
      = AnimationController.combine_effects n priorityOf [f1, f2]) ∧
    (blendPixel (blendPixel blackColor (200,0,0)) (0,200,0)
      = ((50:ℤ),100,0)) ∧ (((50:ℤ),100,0) ≠ ((200:ℤ),0,0)) := by
  have hgetD : (List.replicate n blackColor).getD idx blackColor
      = blackColor := by
    simp [List.getD_eq_getElem?_getD, List.getElem?_replicate_of_lt hn]
  have hlen : (List.replicate n blackColor).length = n := by simp
  have happly1 : applyFrame (List.replicate n blackColor) f1
      = (List.replicate n blackColor).set idx (blendPixel blackColor p1) := by
    rw [applyFrame_single _ f1 idx p1 hp1 hi1 (by omega), hgetD]
  have happly2 : applyFrame ((List.replicate n blackColor).set idx
        (blendPixel blackColor p1)) f2
      = (List.replicate n blackColor).set idx
          (blendPixel (blendPixel blackColor p1) p2) := by
    rw [applyFrame_single _ f2 idx p2 hp2 hi2 (by simp [hn])]
    rw [List.set_set]
    congr 2
    simp [List.getD_eq_getElem?_getD, List.getElem?_set_self (by omega :
      idx < (List.replicate n blackColor).length)]
  have hsorted : sortByKey (fun f => priorityOf f.effect_id) [f1, f2]
      = [f1, f2] := by
    simp [sortByKey, insertByKey, h12.le]
  have hsorted' : sortByKey (fun f => priorityOf f.effect_id) [f2, f1]
      = [f1, f2] := by
    simp [sortByKey, insertByKey, if_neg (not_le.mpr h12)]
  refine ⟨?_, ?_, by norm_num [blendPixel, pyTrunc, blackColor], by decide⟩
  · simp only [AnimationController.combine_effects, hsorted, List.foldl_cons,
      List.foldl_nil, happly1, happly2]
    rfl
  · simp only [AnimationController.combine_effects, hsorted, hsorted']

/-- Witness for `C4_composite_order_and_blend` at the concrete frames
`frameA` (priority value 1) and `frameB` (priority value 2) on a 1-pixel
strip. -/
theorem C4_composite_order_and_blend_witness :
    ((AnimationController.combine_effects 1 prioAB [frameA, frameB]).map
        AnimationFrame.pixels
      = some ((List.replicate 1 blackColor).set 0
          (blendPixel (blendPixel blackColor (200,0,0)) (0,200,0)))) ∧
    (AnimationController.combine_effects 1 prioAB [frameB, frameA]
      = AnimationController.combine_effects 1 prioAB [frameA, frameB]) := by
  have T := C4_composite_order_and_blend 1 prioAB frameA frameB 0
    (200,0,0) (0,200,0) (by simp [prioAB, frameA, frameB]) rfl rfl rfl rfl
    (by norm_num)
  exact ⟨T.1, T.2.1⟩

/- ----------------------------------------------------------------
   AnimationController update loop and effect table
   (animation_controller.py, lines 306-430)
   ---------------------------------------------------------------- -/

/-- Per-tick abstract view of one registered effect, as the polymorphic
`BaseEffect` interface that `AnimationController.update` drives.  Each
effect's `update(now)` and `is_complete(now)` are invoked at most once per
tick, so the tick's interaction with the effect is its `state`, the outcome
of that one `update` call (`.error ()` when it raises), and the
`is_complete` poll (`completeNow`); `priority` is `priority.value`. -/
structure GEffect where
  effect_id : String
  priority : ℕ
  state : AnimationState
  updateResult : Except Unit (Option AnimationFrame)
  completeNow : Bool

/-- The `BaseEffect.stop` transition. -/
def GEffect.stop (e : GEffect) : GEffect :=
  { e with state := AnimationState.stopped }

/-- The per-effect body of the update loop (lines 408-420): a Running
effect's update is attempted inside `try`/`except` — an exception is caught,
marks the effect Errored and contributes no frame — and afterwards the
completion poll stops a complete effect.  Returns the effect's new state and
its contributed frame. -/
def tickOne (e : GEffect) : GEffect × Option AnimationFrame :=
  let r : GEffect × Option AnimationFrame :=
    if e.state = AnimationState.running then
      match e.updateResult with
      | Except.ok f => (e, f)
      | Except.error _ => ({ e with state := AnimationState.error }, none)
    else (e, none)
  if r.1.completeNow then (r.1.stop, r.2) else r

/-- The `for effect in self.effects.values()` loop: ticks every table entry
in order and collects the produced frames (`active_effects`). -/
def controllerTick :
    List (String × GEffect) → List (String × GEffect) × List AnimationFrame
  | [] => ([], [])
  | (i, e) :: rest =>
    let r := tickOne e
    let s := controllerTick rest
    ((i, r.1) :: s.1, match r.2 with
      | some f => f :: s.2
      | none => s.2)

/-- The frame a table entry contributes this tick: its update's returned
frame when Running and not raising, nothing otherwise. -/
def goodFrame (e : GEffect) : Option AnimationFrame :=
  if e.state = AnimationState.running then
    match e.updateResult with
    | Except.ok f => f
    | Except.error _ => none
  else none

/-- The body of `AnimationController.update` past the running/rate-limiter
guards, over a strip of `n` pixels: ticks every effect and, when at least
one frame was produced, composites them (`_combine_effects`) and renders the
combined frame; the rendered frame is the second component (`none` when
nothing was rendered). -/
def AnimationController.update (n : ℕ) (es : List (String × GEffect)) :
    List (String × GEffect) × Option AnimationFrame :=
  let r := controllerTick es
  (r.1, if r.2.isEmpty then none
    else AnimationController.combine_effects n
      (fun id => ((r.1.lookup id).map GEffect.priority).getD 0) r.2)

/-- The `AnimationController.add_effect` method: a duplicate id is rejected
with `False` and the table is untouched; otherwise the effect is appended
under its id. -/
def AnimationController.add_effect (es : List (String × GEffect))
    (e : GEffect) : List (String × GEffect) × Bool :=
  if (es.lookup e.effect_id).isSome then (es, false)
  else (es ++ [(e.effect_id, e)], true)

/-- The `AnimationController.remove_effect` method: an unknown id is rejected
with `False` and nothing changes; otherwise the effect is stopped and its
entry deleted. -/
def AnimationController.remove_effect (es : List (String × GEffect))
    (effect_id : String) : List (String × GEffect) × Bool :=
  match es.lookup effect_id with
  | none => (es, false)
  | some _ => (es.eraseP (fun p => p.1 == effect_id), true)

/-- The tick maps each table entry through `tickOne`, keeping keys and
order. -/
theorem controllerTick_fst : ∀ (es : List (String × GEffect)),
    (controllerTick es).1 = es.map (fun p => (p.1, (tickOne p.2).1)) := by
  intro es
  induction es with
  | nil => rfl
  | cons p rest ih =>
    cases p with
    | mk i e => simp only [controllerTick, List.map_cons, ih]

/-- The collected frames are exactly the Running, non-raising effects'
frames, in table order. -/
theorem controllerTick_snd : ∀ (es : List (String × GEffect)),
    (controllerTick es).2 = es.filterMap (fun p => goodFrame p.2) := by
  intro es
  induction es with
  | nil => rfl
  | cons p rest ih =>
    cases p with
    | mk i e =>
      simp only [controllerTick, List.filterMap_cons, ih]
      have hsnd : (tickOne e).2 = goodFrame e := by
        by_cases hs : e.state = AnimationState.running
        · cases hu : e.updateResult with
          | ok f =>
            by_cases hc : e.completeNow <;>
              simp [tickOne, goodFrame, hs, hu, hc, GEffect.stop]
          | error u =>
            by_cases hc : e.completeNow <;>
              simp [tickOne, goodFrame, hs, hu, hc, GEffect.stop]
        · by_cases hc : e.completeNow <;>
            simp [tickOne, goodFrame, hs, hc, GEffect.stop]
      rw [hsnd]
      cases goodFrame e <;> rfl

/-- Looking up through a value-only map of an association list. -/
theorem lookup_map_snd (g : GEffect → GEffect) (k : String) :
    ∀ (es : List (String × GEffect)),
      (es.map (fun p => (p.1, g p.2))).lookup k = (es.lookup k).map g := by
  intro es
  induction es with
  | nil => rfl
  | cons p rest ih =>
    cases p with
    | mk i e =>
      simp only [List.map_cons, List.lookup]
      cases h : k == i <;> simp [h, ih]

/-- C5: if one effect's update raises, the exception is caught — the tick
function is total — that effect alone is marked Errored (an effect whose
update does not raise never ends the tick Errored), every other Running
effect's frame is still collected in table order, and when any frames were
produced the tick still composites and renders a combined frame. -/
theorem C5_effect_error_isolated (n : ℕ) (es : List (String × GEffect))
    (k : String) (e : GEffect) (hlk : es.lookup k = some e)
    (hrun : e.state = AnimationState.running)
    (herr : e.updateResult = Except.error ())
    (hnc : e.completeNow = false) :
    ((controllerTick es).1.lookup k
      = some { e with state := AnimationState.error }) ∧
    ((controllerTick es).2 = es.filterMap (fun p => goodFrame p.2)) ∧
    (∀ (g : GEffect), g.state = AnimationState.running →
      (∀ u, g.updateResult ≠ Except.error u) →
      (tickOne g).1.state ≠ AnimationState.error) ∧
    ((controllerTick es).2 ≠ [] →
      (AnimationController.update n es).2.isSome = true) := by
  refine ⟨?_, controllerTick_snd es, ?_, ?_⟩
  · rw [controllerTick_fst, lookup_map_snd (fun x => (tickOne x).1) k es, hlk]
    simp [tickOne, hrun, herr, hnc]
  · intro g hg hne
    cases hu : g.updateResult with
    | ok f =>
      simp only [tickOne, hg, if_pos rfl, hu]
      by_cases hc : g.completeNow <;> simp [hc, GEffect.stop, hg]
    | error u => exact absurd hu (hne u)
  · intro hne
    cases hr : (controllerTick es).2 with
    | nil => exact absurd hr hne
    | cons f fs =>
      simp only [AnimationController.update, hr]
      rw [if_neg (by simp)]
      simp [AnimationController.combine_effects]

/-- A frame produced by the non-raising effect of the C5 witness. -/
def frameGood : AnimationFrame :=
  { timestamp := 0, pixels := [(1,2,3)], indices := [0], brightness := 1,
    effect_id := "good" }

/-- A Running effect whose update raises this tick. -/
def effBad : GEffect :=
  { effect_id := "bad", priority := 2, state := AnimationState.running,
    updateResult := Except.error (), completeNow := false }

/-- A Running effect whose update returns `frameGood` this tick. -/
def effGood : GEffect :=
  { effect_id := "good", priority := 1, state := AnimationState.running,
    updateResult := Except.ok (some frameGood), completeNow := false }

/-- Witness for `C5_effect_error_isolated`: a two-effect table where "bad"
raises and "good" produces a frame; the tick errors "bad" alone, still
collects "good"'s frame, and renders. -/
theorem C5_effect_error_isolated_witness :
    ((controllerTick [("bad", effBad), ("good", effGood)]).2
      = [frameGood]) ∧
    ((controllerTick [("bad", effBad), ("good", effGood)]).1.lookup "bad"
      = some { effBad with state := AnimationState.error }) ∧
    ((AnimationController.update 1
        [("bad", effBad), ("good", effGood)]).2.isSome = true) := by
  have T := C5_effect_error_isolated 1 [("bad", effBad), ("good", effGood)]
    "bad" effBad rfl rfl rfl rfl
  have hframes : (controllerTick [("bad", effBad), ("good", effGood)]).2
      = [frameGood] := by
    rw [T.2.1]
    simp [goodFrame, effBad, effGood]
  exact ⟨hframes, T.1, T.2.2.2 (by rw [hframes]; simp)⟩

/-- C9: adding an effect whose id is already registered is rejected with
`False` and leaves the table — and so the existing effect — unchanged;
removing an unknown id is rejected with `False` with no side effects; both
operations are total functions of the table (no exception reaches the
caller). -/
theorem C9_add_remove_reject (es : List (String × GEffect)) (e : GEffect)
    (k : String) :
    ((es.lookup e.effect_id).isSome = true →
      AnimationController.add_effect es e = (es, false)) ∧
    (es.lookup k = none →
      AnimationController.remove_effect es k = (es, false)) := by
  constructor
  · intro h
    simp [AnimationController.add_effect, h]
  · intro h
    simp only [AnimationController.remove_effect, h]

/-- Witness for `C9_add_remove_reject`: re-adding "bad" to a table already
holding it is rejected and unchanged, as is removing the unknown id
"nope". -/
theorem C9_add_remove_reject_witness :
    (AnimationController.add_effect [("bad", effBad)] effBad
      = ([("bad", effBad)], false)) ∧
    (AnimationController.remove_effect [("bad", effBad)] "nope"
      = ([("bad", effBad)], false)) := by
  have T := C9_add_remove_reject [("bad", effBad)] effBad "nope"
  exact ⟨T.1 rfl, T.2 rfl⟩
